import Mathlib

/-
  Verification development for the adobe-mun-kinobi metadata-extraction core.

  The Python modules `src/implib/package.py`, `src/implib/xmltodict.py`,
  `src/implib/acrobat.py` and the orchestration in `src/__main__.py` are
  shallowly embedded below: Python values that flow through the decoded-XML
  dictionaries are modelled by `PyVal`, Python exceptions by `PyErr`, and
  each fallible Python function by a Lean function into `Except PyErr`.
-/

namespace Kinobi

/-- Python exception classes that the embedded code can raise.
    `keyError` is the only `LookupError` subclass that occurs here;
    `unboundLocalError` is a `NameError` subclass, and `typeError` and
    `attributeError` are neither. -/
inductive PyErr where
  | keyError
  | typeError
  | attributeError
  | unboundLocalError
deriving DecidableEq, Repr

/-- Whether the exception is of LookupError class (KeyError or IndexError in
    CPython; only KeyError occurs in this development). -/
def PyErr.isLookupError : PyErr → Bool
  | .keyError => true
  | _ => false

/-- The Python values held by the decoded-XML dictionaries: `None`, strings,
    lists, and string-keyed dicts (all dict keys arising from XML decoding are
    strings).  Dicts are insertion-ordered association lists, as in CPython. -/
inductive PyVal where
  | none
  | str (s : String)
  | list (xs : List PyVal)
  | dict (kvs : List (String × PyVal))
deriving BEq, Repr

/-- Python truthiness for the modelled values: `None` is falsy, and a string,
    list or dict is truthy exactly when it is non-empty. -/
def truthy : PyVal → Bool
  | .none => false
  | .str s => s != ""
  | .list [] => false
  | .list (_ :: _) => true
  | .dict [] => false
  | .dict (_ :: _) => true

/-- Ordered association-list lookup: the value at the first matching key. -/
def alookup {α : Type} : List (String × α) → String → Option α
  | [], _ => Option.none
  | kv :: rest, k => if kv.1 == k then some kv.2 else alookup rest k

/-- Python `d[k]` subscripting: KeyError on a dict without the key, TypeError
    on `None`, strings and lists (string indices on non-mapping values). -/
def getItem (v : PyVal) (k : String) : Except PyErr PyVal :=
  match v with
  | .dict kvs =>
    match alookup kvs k with
    | some x => .ok x
    | Option.none => .error .keyError
  | _ => .error .typeError

/-- Python `d.get(k)`: `None` default on a dict, AttributeError when the
    receiver is not a dict (no `get` attribute on None/str/list). -/
def pyGet (v : PyVal) (k : String) : Except PyErr PyVal :=
  match v with
  | .dict kvs => .ok ((alookup kvs k).getD .none)
  | _ => .error .attributeError

/-- Python `v == s` against a string literal: only a string with the same
    characters compares equal; other values compare unequal without error. -/
def pyEqStr (v : PyVal) (s : String) : Bool :=
  match v with
  | .str t => t == s
  | _ => false

/-- The SAP_CODES table from `package.py`, mapping current Adobe SAP codes to
    human-readable product names (insertion order preserved). -/
def SAP_CODES : List (String × String) :=
  [("AEFT", "Adobe After Effects"),
   ("AICY", "Adobe InCopy"),
   ("AME", "Adobe Media Encoder"),
   ("APRO", "Adobe Acrobat Pro"),
   ("AUDT", "Adobe Audition"),
   ("CHAR", "Adobe Character Animator"),
   ("DRWV", "Adobe Dreamweaver"),
   ("ESHR", "Adobe Dimension"),
   ("FLPR", "Adobe Animate and Mobile Device Packaging"),
   ("FRSC", "Adobe Fresco"),
   ("IDSN", "Adobe InDesign"),
   ("ILST", "Adobe Illustrator"),
   ("KBRG", "Adobe Bridge"),
   ("LRCC", "Adobe Lightroom"),
   ("LTRM", "Adobe Lightroom Classic"),
   ("PHSP", "Adobe Photoshop"),
   ("PPRO", "Adobe Premiere Pro"),
   ("PRLD", "Adobe Prelude"),
   ("RUSH", "Adobe Premiere Rush"),
   ("SBSTA", "Adobe Substance Alchemist"),
   ("SBSTD", "Adobe Substance Designer"),
   ("SBSTP", "Adobe Substance Painter"),
   ("SPRK", "Adobe XD")]

/-- The SUPPORTED_LOCALES list from `package.py`. -/
def SUPPORTED_LOCALES : List String :=
  ["ar_AE", "cs_CZ", "da_DK", "de_DE", "en_AE", "en_GB", "en_IL", "en_US",
   "en_XM", "es_ES", "es_MX", "fi_FI", "fr_CA", "fr_FR", "fr_MA", "fr_XM",
   "he_IL", "hu_HU", "it_IT", "ja_JP", "ko_KR", "nb_NO", "nl_NL", "no_NO",
   "pl_PL", "pt_BR", "ru_RU", "sv_SE", "th_TH", "tr_TR", "uk_UA", "zh_CN",
   "zh_TW"]

/-- The BLOCKING_APPS table from `package.py`. -/
def BLOCKING_APPS : List (String × List String) :=
  [("APRO", ["Microsoft Word", "Safari"])]

/-- Python `v in SAP_CODES` (dict membership testing against the keys):
    a string key answers membership; an unhashable value (list or dict)
    raises TypeError; `None` is hashable and is not a key of the table. -/
def sapMember (v : PyVal) : Except PyErr Bool :=
  match v with
  | .str s => .ok (SAP_CODES.any (fun kv => kv.1 == s))
  | .none => .ok false
  | .list _ => .error .typeError
  | .dict _ => .error .typeError

/-- Python `for media in hdmedia` iteration: a list yields its elements, a
    dict yields its keys (strings), a string yields its one-character
    substrings, and `None` is not iterable (TypeError). -/
def iterObjs (v : PyVal) : Except PyErr (List PyVal) :=
  match v with
  | .list xs => .ok xs
  | .dict kvs => .ok (kvs.map (fun kv => PyVal.str kv.1))
  | .str s => .ok (s.toList.map (fun c => PyVal.str (String.singleton c)))
  | .none => .error .typeError

/-- The loop body of `process_hdmedia`: walk the iterated objects in order,
    take `media.get ("SAPCode")` (AttributeError when `media` is not a dict),
    and return the first media whose truthy SAP code is a member of
    SAP_CODES; `Option.none` models falling off the end of the loop with the
    local `result` never assigned. -/
def find_media : List PyVal → Except PyErr (Option PyVal)
  | [] => .ok Option.none
  | m :: ms =>
    match pyGet m "SAPCode" with
    | .error e => .error e
    | .ok sap =>
      if truthy sap then
        match sapMember sap with
        | .error e => .error e
        | .ok true => .ok (some m)
        | .ok false => find_media ms
      else find_media ms

/-- The `process_hdmedia` function of `package.py`: try the selection loop;
    an AttributeError raised inside it is caught and the whole input becomes
    the result; a loop that finishes without assigning `result` raises
    UnboundLocalError at the `return`; any other exception propagates. -/
def process_hdmedia (hdmedia : PyVal) : Except PyErr PyVal :=
  match iterObjs hdmedia with
  | .error e => .error e
  | .ok ms =>
    match find_media ms with
    | .error .attributeError => .ok hdmedia
    | .error e => .error e
    | .ok (some m) => .ok m
    | .ok Option.none => .error .unboundLocalError

/-- The `process_display_name` function of `package.py`: `SAP_CODES` dict
    subscripting by the SAP-code value (KeyError when the string is not a
    key or the value is `None`, TypeError when the value is unhashable). -/
def process_display_name (sap_code : PyVal) : Except PyErr String :=
  match sap_code with
  | .str s =>
    match alookup SAP_CODES s with
    | some name => .ok name
    | Option.none => .error .keyError
  | .none => .error .keyError
  | .list _ => .error .typeError
  | .dict _ => .error .typeError

/-- The flat record built by `process_opt_xml` (the five keys it assembles,
    in source order). -/
structure OptResult where
  pkg_name : PyVal
  display_name : String
  arch : PyVal
  version : PyVal
  sap_code : PyVal
deriving BEq, Repr

/-- Shape A of `process_opt_xml`: the body of its `try` block,
    `process_hdmedia (install_info ["Medias"] ["Media"])`. -/
def medias_shape (install_info : PyVal) : Except PyErr PyVal :=
  match getItem install_info "Medias" with
  | .error e => .error e
  | .ok m =>
    match getItem m "Media" with
    | .error e => .error e
    | .ok mm => process_hdmedia mm

/-- Shape B of `process_opt_xml`: the body of its `except TypeError` handler,
    `process_hdmedia (install_info ["HDMedias"] ["HDMedia"])`. -/
def hdmedias_shape (install_info : PyVal) : Except PyErr PyVal :=
  match getItem install_info "HDMedias" with
  | .error e => .error e
  | .ok h =>
    match getItem h "HDMedia" with
    | .error e => .error e
    | .ok hh => process_hdmedia hh

/-- The `process_opt_xml` function of `package.py`: try shape A; a TypeError
    (and only a TypeError) falls back to shape B; then read the SAP code and
    the processor architecture, resolve the display name, and assemble the
    flat record, normalizing a truthy architecture equal to `x64` to
    `x86_64`. -/
def process_opt_xml (install_info : PyVal) : Except PyErr OptResult :=
  let hdmediaE :=
    match medias_shape install_info with
    | .error .typeError => hdmedias_shape install_info
    | r => r
  match hdmediaE with
  | .error e => .error e
  | .ok hdmedia =>
    match getItem hdmedia "SAPCode" with
    | .error e => .error e
    | .ok sap_code =>
      match getItem install_info "ProcessorArchitecture" with
      | .error e => .error e
      | .ok arch =>
        match process_display_name sap_code with
        | .error e => .error e
        | .ok display_name =>
          match pyGet install_info "PackageName" with
          | .error e => .error e
          | .ok pkg_name =>
            match pyGet hdmedia "productVersion" with
            | .error e => .error e
            | .ok version =>
              .ok { pkg_name := pkg_name
                    display_name := display_name
                    arch := if truthy arch && pyEqStr arch "x64" then .str "x86_64" else arch
                    version := version
                    sap_code := sap_code }

/-- A parsed XML element as handed to `convert_xml` in `xmltodict.py`: a tag,
    the attribute dict, the optional text content, and the child elements in
    document order. -/
inductive Element where
  | mk (tag : String) (attrib : List (String × String)) (text : Option String)
       (children : List Element)

/-- Tag of an element. -/
def Element.tag : Element → String
  | .mk t _ _ _ => t

/-- Attribute dict of an element. -/
def Element.attrib : Element → List (String × String)
  | .mk _ a _ _ => a

/-- Text content of an element (`Option.none` models a Python `None` text). -/
def Element.text : Element → Option String
  | .mk _ _ t _ => t

/-- Child elements of an element, in document order. -/
def Element.children : Element → List Element
  | .mk _ _ _ c => c

/-- Python `s.strip ()`: drop whitespace from both ends of the string
    (written over the character list so that it evaluates by reduction). -/
def pyStrip (s : String) : String :=
  String.mk (((s.data.dropWhile Char.isWhitespace).reverse.dropWhile
    Char.isWhitespace).reverse)

/-- One `dd [k].append (v)` step on the `defaultdict (list)` of
    `convert_xml`: append `v` to the list at the first entry keyed `k`,
    creating a new entry at the end when `k` is absent. -/
def groupAdd : List (String × List PyVal) → String → PyVal → List (String × List PyVal)
  | [], k, v => [(k, [v])]
  | g :: gs, k, v =>
    if g.1 == k then (g.1, g.2 ++ [v]) :: gs else g :: groupAdd gs k v

/-- The grouping loop of `convert_xml`: fold every (tag, decoded value) pair
    produced by the children into the `defaultdict`. -/
def groupPairs : List (String × PyVal) → List (String × List PyVal) → List (String × List PyVal)
  | [], groups => groups
  | (k, v) :: rest, groups => groupPairs rest (groupAdd groups k v)

/-- The collapse rule of `convert_xml` line 38: a group of length one
    collapses to its sole value, otherwise the group stays a list. -/
def collapse : List PyVal → PyVal
  | [v] => v
  | vs => .list vs

/-- One `d [k] = v` step of a Python dict update: replace the value at the
    first entry keyed `k` in place, appending a new entry when `k` is
    absent. -/
def dictSet : List (String × PyVal) → String → PyVal → List (String × PyVal)
  | [], k, v => [(k, v)]
  | g :: gs, k, v =>
    if g.1 == k then (g.1, v) :: gs else g :: dictSet gs k v

/-- Python `result [root.tag].update (pairs)`: fold the pairs into the dict
    left to right. -/
def dictUpdate (kvs : List (String × PyVal)) (pairs : List (String × PyVal)) :
    List (String × PyVal) :=
  pairs.foldl (fun acc kv => dictSet acc kv.1 kv.2) kvs

mutual

/-- The value that `convert_xml` of `xmltodict.py` stores under the root tag
    (the function always returns a single-key dict keyed by the tag, see
    `convert_xml` below).  The branches mirror the source: group the decoded
    children and collapse each group; a childless element contributes an
    empty dict when it has attributes, else `None`; overlay the attributes;
    then handle truthy text — stored under the reserved `text` key (when
    non-blank after stripping) if the element also has children or
    attributes, otherwise the stripped text replaces the whole value. -/
def convert_inner : Element → PyVal
  | .mk _tag attrib text children =>
    let childPairs := convert_children children
    let base : PyVal :=
      if childPairs.isEmpty then (if attrib.isEmpty then .none else .dict [])
      else .dict ((groupPairs childPairs []).map (fun g => (g.1, collapse g.2)))
    let withAttrs : PyVal :=
      if attrib.isEmpty then base
      else
        match base with
        | .dict kvs => .dict (dictUpdate kvs (attrib.map (fun kv => (kv.1, PyVal.str kv.2))))
        | v => v
    match text with
    | Option.none => withAttrs
    | some t =>
      if t == "" then withAttrs
      else
        let s := pyStrip t
        if !childPairs.isEmpty || !attrib.isEmpty then
          if s == "" then withAttrs
          else
            match withAttrs with
            | .dict kvs => .dict (dictSet kvs "text" (PyVal.str s))
            | v => v
        else .str s

/-- The per-child contribution of the `map (convert_xml, children)` loop of
    `convert_xml`: each decoded child is the single-key dict from its tag to
    its converted value, so iterating the items of all the decoded children
    yields exactly these (tag, value) pairs in document order. -/
def convert_children : List Element → List (String × PyVal)
  | [] => []
  | c :: cs => (c.tag, convert_inner c) :: convert_children cs

end

/-- The `convert_xml` function of `xmltodict.py`: a single-key dict mapping
    the root tag to the converted value. -/
def convert_xml (root : Element) : PyVal :=
  .dict [(root.tag, convert_inner root)]

/-- Dict lookup on a converted value (`Option.none` on a missing key or a
    non-dict value); used only to state properties of `convert_xml`. -/
def PyVal.lookup (v : PyVal) (k : String) : Option PyVal :=
  match v with
  | .dict kvs => alookup kvs k
  | _ => Option.none

/-- Python `sep.join (xs)`. -/
def pyJoin (sep : String) : List String → String
  | [] => ""
  | x :: xs => xs.foldl (fun acc y => acc ++ sep ++ y) x

/-- The filtering loop of `process_app_description` (`package.py` lines
    206..212): walk the locale-tagged description entries in order, keeping
    the value of an entry whose locale equals the requested one, is a
    supported locale, and whose value was not already kept. -/
def collect_descriptions (locale : String) :
    List (String × String) → List String → List String
  | [], descriptions => descriptions
  | d :: ds, descriptions =>
    if d.1 == locale && SUPPORTED_LOCALES.contains d.1
        && !(descriptions.contains d.2) then
      collect_descriptions locale ds (descriptions ++ [d.2])
    else
      collect_descriptions locale ds descriptions

/-- The joining tail of `process_app_description` (`package.py` line 214)
    applied to the collected entries: a space-join when more than one value
    survives, else an empty-separator join. -/
def process_app_description (desc_locales : List (String × String)) (locale : String) :
    String :=
  let descriptions := collect_descriptions locale desc_locales []
  if descriptions.length > 1 then pyJoin " " descriptions else pyJoin "" descriptions

/-- De-duplication keeping first occurrences, skipping values already seen;
    spec-side helper for the description resolver. -/
def dedupSeen (seen : List String) : List String → List String
  | [] => []
  | x :: xs =>
    if seen.contains x then dedupSeen seen xs else x :: dedupSeen (seen ++ [x]) xs

/-- The description resolver as the spec words it (spec 4.4): filter the
    entries to those whose locale tag equals the requested locale and is a
    supported locale, de-duplicate the kept values by exact text equality
    preserving encounter order, then return the empty string, the lone
    surviving value, or the space-join of the survivors.  Stated from the
    spec to be compared with `process_app_description` from the source. -/
def resolve_description (descs : List (String × String)) (locale : String) : String :=
  let kept :=
    dedupSeen []
      ((descs.filter (fun d => d.1 == locale && SUPPORTED_LOCALES.contains d.1)).map
        (fun d => d.2))
  match kept with
  | [] => ""
  | [v] => v
  | vs => pyJoin " " vs

/-- The two filesystem side effects of `acrobat.cleanup`. -/
inductive CleanupAction where
  | detach
  | rmtree
deriving DecidableEq, Repr

/-- A receipt dict yielded by `acrobat.optional_receipts`. -/
structure AcrobatReceipt where
  packageid : String
  version : String
deriving DecidableEq, Repr

/-- Outcomes of the external steps that `acrobat.package_patch` performs, in
    source order: mount the DMG, glob for the installer, expand the package,
    parse the version, the receipts and the minimum OS version; plus whether
    the mount path and the temporary directory exist when `cleanup` checks
    them.  Each step is fallible exactly where the Python can raise. -/
structure AcrobatEnv where
  mount : Except PyErr String
  findInstaller : Except PyErr String
  expand : Except PyErr String
  appVersion : Except PyErr String
  receipts : Except PyErr (List AcrobatReceipt)
  minOsVer : Except PyErr (Option String)
  mountExists : Bool
  tmpExists : Bool

/-- The dict returned by `acrobat.package_patch`: version, receipts, and the
    minimum OS version when the Distribution script carried a truthy one. -/
structure AcrobatPatch where
  version : String
  receipts : List AcrobatReceipt
  min_os : Option String
deriving DecidableEq, Repr

/-- The `acrobat.cleanup` function as a trace of its side effects: detach
    the mount path when it exists, then remove the temporary directory when
    it exists. -/
def cleanup (mountExists tmpExists : Bool) : List CleanupAction :=
  (if mountExists then [CleanupAction.detach] else [])
    ++ (if tmpExists then [CleanupAction.rmtree] else [])

/-- The `acrobat.package_patch` function: run the steps in source order and
    build the patch dict; `cleanup` runs after the last step, and the Python
    has no try/finally, so an exception raised by any step propagates with no
    cleanup trace.  The second component is the trace of cleanup actions
    performed before the function exits. -/
def package_patch (env : AcrobatEnv) : Except PyErr AcrobatPatch × List CleanupAction :=
  match env.mount with
  | .error e => (.error e, [])
  | .ok _mount_path =>
    match env.findInstaller with
    | .error e => (.error e, [])
    | .ok _installer =>
      match env.expand with
      | .error e => (.error e, [])
      | .ok _tmp_pkg =>
        match env.appVersion with
        | .error e => (.error e, [])
        | .ok version =>
          match env.receipts with
          | .error e => (.error e, [])
          | .ok receipts =>
            match env.minOsVer with
            | .error e => (.error e, [])
            | .ok minOs =>
              (.ok { version := version
                     receipts := receipts
                     min_os :=
                       match minOs with
                       | some s => if s == "" then Option.none else some s
                       | Option.none => Option.none },
               cleanup env.mountExists env.tmpExists)

/-- The AdobePackage dataclass of `package.py` (paths modelled as strings;
    `imported` defaults to false as in the dataclass). -/
structure AdobePackage where
  pkg_name : PyVal
  arch : PyVal
  sap_code : PyVal
  display_name : String
  version : PyVal
  min_os : Option String
  installer : String
  uninstaller : String
  receipts : List AcrobatReceipt
  blocking_apps : List String
  app_icon : Option String
  icon_dir : String
  description : String
  imported : Bool := false

/-- The derived pkginfo identifier computed in `AdobePackage.__post_init__`:
    the f-string of the package name, a hyphen, and the version (both fields
    are declared `str` on the dataclass). -/
def pkginfo_file (pkg_name version : String) : String :=
  pkg_name ++ "-" ++ version

/-- The reconciliation pass of `__main__.process` line 54: the imported flag
    is true when the derived identifier is a substring of at least one path
    of the existing-record set. -/
def set_imported (pkginfo : String) (existing_pkgs : List String) : Bool :=
  existing_pkgs.any (fun f => decide (pkginfo.toList <:+: f.toList))

/-- Looking up `BLOCKING_APPS.get (sap_code, list ())`: default empty list,
    TypeError on an unhashable key. -/
def blocking_for (sap_code : PyVal) : Except PyErr (List String) :=
  match sap_code with
  | .str s => .ok ((alookup BLOCKING_APPS s).getD [])
  | .none => .ok []
  | .list _ => .error .typeError
  | .dict _ => .error .typeError

/-- The fixed description string assigned for Acrobat in `process_package`. -/
def APRO_DESCRIPTION : String :=
  "Adobe Acrobat Pro DC makes your job easier every day with the trusted PDF converter."

/-- The inputs of `process_package` that come from the filesystem and the
    munki preferences, plus the locale-based description resolver
    (`process_app_description` applied to the installer package) as an
    oracle, and the outcomes of the external Acrobat steps. -/
structure PackageEnv where
  install_info : PyVal
  min_os_plist : Option String
  app_icon : Option String
  icon_dir : String
  install_pkg : String
  uninstall_pkg : String
  descOracle : PyVal → String → Except PyErr String
  acrobat : AcrobatEnv

/-- The `process_package` function of `package.py`: extract the flat record
    from the option XML, fill in the filesystem-derived fields, resolve the
    description through the locale-based resolver when the SAP code is not
    APRO, and for APRO run the Acrobat patch, set the fixed description, and
    overlay the patch dict (version, receipts, and minimum OS when present). -/
def process_package (env : PackageEnv) (locale : String) : Except PyErr AdobePackage :=
  match process_opt_xml env.install_info with
  | .error e => .error e
  | .ok pkg =>
    match blocking_for pkg.sap_code with
    | .error e => .error e
    | .ok blocking =>
      if !(pyEqStr pkg.sap_code "APRO") then
        match env.descOracle pkg.sap_code locale with
        | .error e => .error e
        | .ok descr =>
          .ok { pkg_name := pkg.pkg_name
                arch := pkg.arch
                sap_code := pkg.sap_code
                display_name := pkg.display_name
                version := pkg.version
                min_os := env.min_os_plist
                installer := env.install_pkg
                uninstaller := env.uninstall_pkg
                receipts := []
                blocking_apps := blocking
                app_icon := env.app_icon
                icon_dir := env.icon_dir
                description := descr }
      else
        match (package_patch env.acrobat).1 with
        | .error e => .error e
        | .ok patch =>
          .ok { pkg_name := pkg.pkg_name
                arch := pkg.arch
                sap_code := pkg.sap_code
                display_name := pkg.display_name
                version := .str patch.version
                min_os :=
                  match patch.min_os with
                  | some v => some v
                  | Option.none => env.min_os_plist
                installer := env.install_pkg
                uninstaller := env.uninstall_pkg
                receipts := patch.receipts
                blocking_apps := blocking
                app_icon := env.app_icon
                icon_dir := env.icon_dir
                description := APRO_DESCRIPTION }

theorem any_of_alookup {α : Type} {l : List (String × α)} {k : String} {v : α}
    (h : alookup l k = some v) : l.any (fun kv => kv.1 == k) = true := by
  induction l with
  | nil => simp [alookup] at h
  | cons p rest ih =>
    rw [alookup] at h
    by_cases hp : (p.1 == k) = true
    · simp [List.any_cons, hp]
    · rw [if_neg hp] at h
      simp [List.any_cons, hp, ih h]

theorem ne_nil_of_alookup {α : Type} {l : List (String × α)} {k : String} {v : α}
    (h : alookup l k = some v) : l ≠ [] := by
  cases l with
  | nil => simp [alookup] at h
  | cons p rest => simp

theorem sap_ne_empty {s : String} {dn : String}
    (h : alookup SAP_CODES s = some dn) : s ≠ "" := by
  intro hs
  subst hs
  have hnone : alookup SAP_CODES "" = Option.none := by decide
  rw [hnone] at h
  exact Option.noConfusion h

/-- C2: for every constructed PackageRecord, the derived pkginfo identifier
    is the package name, a hyphen, and the version; the imported flag is
    true iff that identifier is a substring of at least one path of the
    existing-record set, and it is false on the empty set. -/
theorem claim_C2 (pkg_name version : String) (existing_pkgs : List String) :
    pkginfo_file pkg_name version = pkg_name ++ "-" ++ version
    ∧ (set_imported (pkginfo_file pkg_name version) existing_pkgs = true
        ↔ ∃ f ∈ existing_pkgs, (pkginfo_file pkg_name version).toList <:+: f.toList)
    ∧ set_imported (pkginfo_file pkg_name version) [] = false := by
  refine ⟨rfl, ?_, rfl⟩
  simp [set_imported, List.any_eq_true]

theorem collect_eq (locale : String) (descs : List (String × String)) :
    ∀ acc, collect_descriptions locale descs acc
      = acc ++ dedupSeen acc
          ((descs.filter (fun d => d.1 == locale && SUPPORTED_LOCALES.contains d.1)).map
            (fun d => d.2)) := by
  induction descs with
  | nil => intro acc; simp [collect_descriptions, dedupSeen]
  | cons d ds ih =>
    intro acc
    rw [collect_descriptions, List.filter_cons]
    cases h1 : (d.1 == locale && SUPPORTED_LOCALES.contains d.1) with
    | false =>
      simp only [h1, Bool.false_and, Bool.false_eq_true, if_false]
      exact ih acc
    | true =>
      cases h2 : acc.contains d.2 with
      | true =>
        simp only [h1, h2, Bool.true_and, Bool.not_true, Bool.and_false,
          Bool.false_eq_true, if_false, if_true, List.map_cons, dedupSeen, if_pos h2]
        exact ih acc
      | false =>
        simp only [h1, h2, Bool.true_and, Bool.not_false, Bool.and_true, if_true,
          List.map_cons, dedupSeen, Bool.false_eq_true, if_false]
        rw [ih (acc ++ [d.2]), List.append_assoc, List.singleton_append]

/-- C8: the description resolver keeps exactly the entries matching the
    requested and supported locale, de-duplicates preserving encounter
    order, and returns the space-join, the lone value, or the empty string;
    `process_app_description` from the source equals `resolve_description`
    stated from the spec, and the example given by the spec evaluates
    to `A`. -/
theorem claim_C8 :
    (∀ (descs : List (String × String)) (locale : String),
      process_app_description descs locale = resolve_description descs locale)
    ∧ process_app_description [("en_GB", "A"), ("en_GB", "A"), ("fr_FR", "B")] "en_GB"
        = "A" := by
  constructor
  · intro descs locale
    unfold process_app_description resolve_description
    rw [collect_eq, List.nil_append]
    generalize dedupSeen []
      ((descs.filter (fun d => d.1 == locale && SUPPORTED_LOCALES.contains d.1)).map
        (fun d => d.2)) = kept
    match kept with
    | [] => rfl
    | [v] => rfl
    | v₁ :: v₂ :: vs =>
      rw [if_pos (by simp only [List.length_cons]; omega)]
  · rfl

theorem none_alookup_any {α : Type} {l : List (String × α)} {k : String}
    (h : alookup l k = Option.none) : l.any (fun kv => kv.1 == k) = false := by
  induction l with
  | nil => simp
  | cons p rest ih =>
    rw [alookup] at h
    by_cases hp : (p.1 == k) = true
    · rw [if_pos hp] at h; exact Option.noConfusion h
    · rw [if_neg hp] at h
      simp only [List.any_cons, ih h, Bool.or_false]
      exact Bool.not_eq_true _ ▸ (by simpa using hp)

theorem process_hdmedia_dict {kvs : List (String × PyVal)} (h : kvs ≠ []) :
    process_hdmedia (.dict kvs) = .ok (.dict kvs) := by
  match kvs, h with
  | p :: rest, _ => rfl

theorem find_media_select {m : List (String × PyVal)} {rest : List PyVal}
    {sap dn : String}
    (hsap : alookup m "SAPCode" = some (PyVal.str sap))
    (hdn : alookup SAP_CODES sap = some dn) :
    find_media (PyVal.dict m :: rest) = .ok (some (.dict m)) := by
  have hne : (sap != "") = true := by
    simpa using sap_ne_empty hdn
  rw [find_media]
  simp [pyGet, hsap, truthy, hne, sapMember, any_of_alookup hdn]

theorem process_hdmedia_single {m : List (String × PyVal)} {sap dn : String}
    (hsap : alookup m "SAPCode" = some (PyVal.str sap))
    (hdn : alookup SAP_CODES sap = some dn) :
    process_hdmedia (.list [.dict m]) = .ok (.dict m) := by
  rw [process_hdmedia]
  simp [iterObjs, find_media_select hsap hdn]

/-- An InstallInfo dict presenting the media collection under the
    `Medias.Media` shape; used to state properties of `process_opt_xml`. -/
def mkInstallInfo (pn arch media : PyVal) : PyVal :=
  .dict [("PackageName", pn), ("Medias", .dict [("Media", media)]),
         ("ProcessorArchitecture", arch)]

/-- An InstallInfo dict carrying an arbitrary value under the `Medias` key
    and a media collection under the `HDMedias.HDMedia` shape; used to state
    the shape-fallback properties of `process_opt_xml`. -/
def mkInstallInfoB (pn arch medias hdmedia : PyVal) : PyVal :=
  .dict [("PackageName", pn), ("Medias", medias),
         ("HDMedias", .dict [("HDMedia", hdmedia)]),
         ("ProcessorArchitecture", arch)]

theorem process_opt_xml_ok {ii : PyVal} {m : List (String × PyVal)}
    {sap dn : String} {arch pn : PyVal}
    (hshape : (match medias_shape ii with
               | .error .typeError => hdmedias_shape ii
               | r => r) = .ok (.dict m))
    (hsap : alookup m "SAPCode" = some (PyVal.str sap))
    (hdn : alookup SAP_CODES sap = some dn)
    (harch : getItem ii "ProcessorArchitecture" = .ok arch)
    (hpn : pyGet ii "PackageName" = .ok pn) :
    process_opt_xml ii =
      .ok { pkg_name := pn
            display_name := dn
            arch := if truthy arch && pyEqStr arch "x64" then .str "x86_64" else arch
            version := (alookup m "productVersion").getD .none
            sap_code := .str sap } := by
  have hsapItem : getItem (.dict m) "SAPCode" = .ok (.str sap) := by
    simp [getItem, hsap]
  have hver : pyGet (.dict m) "productVersion"
      = .ok ((alookup m "productVersion").getD .none) := by
    simp [pyGet]
  rw [process_opt_xml]
  rw [hshape]
  simp [hsapItem, harch, process_display_name, hdn, hpn, hver]

/-- C9: extraction normalizes the architecture token `x64` to `x86_64` and
    passes every other architecture token through unchanged (no allow-list on
    architecture). -/
theorem claim_C9 (pn : PyVal) (s : String) (m : List (String × PyVal))
    (sap dn : String)
    (hsap : alookup m "SAPCode" = some (PyVal.str sap))
    (hdn : alookup SAP_CODES sap = some dn) :
    (process_opt_xml (mkInstallInfo pn (.str s) (.dict m))).map (fun r => r.arch)
      = .ok (.str (if s = "x64" then "x86_64" else s)) := by
  have hne : m ≠ [] := ne_nil_of_alookup hsap
  have hshape : (match medias_shape (mkInstallInfo pn (.str s) (.dict m)) with
                 | .error .typeError => hdmedias_shape (mkInstallInfo pn (.str s) (.dict m))
                 | r => r) = .ok (.dict m) := by
    simp [medias_shape, mkInstallInfo, getItem, alookup, process_hdmedia_dict hne]
  have harch : getItem (mkInstallInfo pn (.str s) (.dict m)) "ProcessorArchitecture"
      = .ok (.str s) := by
    simp [mkInstallInfo, getItem, alookup]
  have hpn : pyGet (mkInstallInfo pn (.str s) (.dict m)) "PackageName" = .ok pn := by
    simp [mkInstallInfo, pyGet, alookup]
  rw [process_opt_xml_ok hshape hsap hdn harch hpn]
  by_cases hs : s = "x64"
  · subst hs
    simp [truthy, pyEqStr, Except.map]
  · simp [truthy, pyEqStr, hs, Except.map]

/-- C9 witness: the theorem applied to the `arm64` token of the recognized
    Photoshop media. -/
theorem claim_C9_witness :
    (process_opt_xml (mkInstallInfo (.str "p") (.str "arm64")
        (.dict [("SAPCode", PyVal.str "PHSP")]))).map (fun r => r.arch)
      = .ok (.str "arm64") := by
  simpa using
    claim_C9 (.str "p") "arm64" [("SAPCode", PyVal.str "PHSP")]
      "PHSP" "Adobe Photoshop" rfl rfl

/-- C7: a manifest presenting a recognized media object directly under
    `Medias.Media` extracts to the same record as one wrapping the same
    object in a one-element sequence. -/
theorem claim_C7 (pn arch : PyVal) (m : List (String × PyVal)) (sap dn : String)
    (hsap : alookup m "SAPCode" = some (PyVal.str sap))
    (hdn : alookup SAP_CODES sap = some dn) :
    process_opt_xml (mkInstallInfo pn arch (.dict m))
      = process_opt_xml (mkInstallInfo pn arch (.list [.dict m])) := by
  have hne : m ≠ [] := ne_nil_of_alookup hsap
  have hshape₁ : (match medias_shape (mkInstallInfo pn arch (.dict m)) with
                  | .error .typeError => hdmedias_shape (mkInstallInfo pn arch (.dict m))
                  | r => r) = .ok (.dict m) := by
    simp [medias_shape, mkInstallInfo, getItem, alookup, process_hdmedia_dict hne]
  have hshape₂ : (match medias_shape (mkInstallInfo pn arch (.list [.dict m])) with
                  | .error .typeError =>
                      hdmedias_shape (mkInstallInfo pn arch (.list [.dict m]))
                  | r => r) = .ok (.dict m) := by
    simp [medias_shape, mkInstallInfo, getItem, alookup,
      process_hdmedia_single hsap hdn]
  have harch₁ : getItem (mkInstallInfo pn arch (.dict m)) "ProcessorArchitecture"
      = .ok arch := by
    simp [mkInstallInfo, getItem, alookup]
  have harch₂ : getItem (mkInstallInfo pn arch (.list [.dict m])) "ProcessorArchitecture"
      = .ok arch := by
    simp [mkInstallInfo, getItem, alookup]
  have hpn₁ : pyGet (mkInstallInfo pn arch (.dict m)) "PackageName" = .ok pn := by
    simp [mkInstallInfo, pyGet, alookup]
  have hpn₂ : pyGet (mkInstallInfo pn arch (.list [.dict m])) "PackageName" = .ok pn := by
    simp [mkInstallInfo, pyGet, alookup]
  rw [process_opt_xml_ok hshape₁ hsap hdn harch₁ hpn₁,
    process_opt_xml_ok hshape₂ hsap hdn harch₂ hpn₂]

/-- C7 witness: the theorem applied to a concrete recognized media object. -/
theorem claim_C7_witness :
    process_opt_xml (mkInstallInfo (.str "p") (.str "x64")
        (.dict [("SAPCode", PyVal.str "PHSP")]))
      = process_opt_xml (mkInstallInfo (.str "p") (.str "x64")
        (.list [.dict [("SAPCode", PyVal.str "PHSP")]])) :=
  claim_C7 (.str "p") (.str "x64") [("SAPCode", PyVal.str "PHSP")]
    "PHSP" "Adobe Photoshop" rfl rfl

/-- An entry of a media sequence that carries no recognized SAP code: its
    `SAPCode` get is absent, `None`, or a string that is not a key of
    SAP_CODES. -/
def badSap (o : Option PyVal) : Prop :=
  o = Option.none ∨ o = some PyVal.none
    ∨ ∃ s, o = some (PyVal.str s) ∧ alookup SAP_CODES s = Option.none

theorem find_media_none {ms : List PyVal}
    (h : ∀ mv ∈ ms, ∃ kvs, mv = PyVal.dict kvs ∧ badSap (alookup kvs "SAPCode")) :
    find_media ms = .ok Option.none := by
  induction ms with
  | nil => rfl
  | cons mv rest ih =>
    obtain ⟨kvs, hmv, hbad⟩ := h mv (List.mem_cons_self mv rest)
    subst hmv
    have hrest := ih (fun x hx => h x (List.mem_cons_of_mem _ hx))
    rw [find_media]
    rcases hbad with hb | hb | ⟨s, hb, hs⟩
    · simp [pyGet, hb, truthy, hrest]
    · simp [pyGet, hb, truthy, hrest]
    · by_cases hse : s = ""
      · subst hse
        simp [pyGet, hb, truthy, hrest]
      · simp [pyGet, hb, truthy, hse, sapMember, none_alookup_any hs, hrest]

/-- C3 counterexample: a media sequence whose sole entry carries the
    unrecognized code `ZZZZ` makes extraction fail with UnboundLocalError
    (a NameError subclass), which is not a LookupError-class condition as
    the claim states. -/
theorem claim_C3_cex :
    process_opt_xml (mkInstallInfo (.str "p") (.str "x64")
        (.list [.dict [("SAPCode", PyVal.str "ZZZZ")]]))
      = .error .unboundLocalError
    ∧ PyErr.isLookupError .unboundLocalError = false :=
  ⟨rfl, rfl⟩

/-- C3 amended: a manifest whose media collection holds no recognized
    product code never silently defaults the display name, but the failure
    class differs by shape: a single object with an unrecognized code fails
    with KeyError (LookupError class), while a sequence none of whose
    entries carries a recognized code fails with UnboundLocalError (a
    NameError subclass, not LookupError). -/
theorem claim_C3 :
    (∀ (pn arch : PyVal) (m : List (String × PyVal)) (sap : String),
        alookup m "SAPCode" = some (PyVal.str sap) →
        alookup SAP_CODES sap = Option.none →
        process_opt_xml (mkInstallInfo pn arch (.dict m)) = .error .keyError
          ∧ PyErr.isLookupError .keyError = true)
    ∧ (∀ (pn arch : PyVal) (ms : List PyVal),
        (∀ mv ∈ ms, ∃ kvs, mv = PyVal.dict kvs ∧ badSap (alookup kvs "SAPCode")) →
        process_opt_xml (mkInstallInfo pn arch (.list ms)) = .error .unboundLocalError
          ∧ PyErr.isLookupError .unboundLocalError = false) := by
  constructor
  · intro pn arch m sap hsap hlo
    have hne : m ≠ [] := ne_nil_of_alookup hsap
    have hshape : (match medias_shape (mkInstallInfo pn arch (.dict m)) with
                   | .error .typeError => hdmedias_shape (mkInstallInfo pn arch (.dict m))
                   | r => r) = .ok (.dict m) := by
      simp [medias_shape, mkInstallInfo, getItem, alookup, process_hdmedia_dict hne]
    have hsapItem : getItem (.dict m) "SAPCode" = .ok (.str sap) := by
      simp [getItem, hsap]
    have harch : getItem (mkInstallInfo pn arch (.dict m)) "ProcessorArchitecture"
        = .ok arch := by
      simp [mkInstallInfo, getItem, alookup]
    refine ⟨?_, rfl⟩
    rw [process_opt_xml, hshape]
    simp [hsapItem, harch, process_display_name, hlo]
  · intro pn arch ms h
    have hfm := find_media_none h
    have hproc : process_hdmedia (.list ms) = .error .unboundLocalError := by
      rw [process_hdmedia]
      simp [iterObjs, hfm]
    have hshape : (match medias_shape (mkInstallInfo pn arch (.list ms)) with
                   | .error .typeError => hdmedias_shape (mkInstallInfo pn arch (.list ms))
                   | r => r) = .error .unboundLocalError := by
      simp [medias_shape, mkInstallInfo, getItem, alookup, hproc]
    refine ⟨?_, rfl⟩
    rw [process_opt_xml, hshape]

/-- C3 witness: the amended theorem applied to a single unrecognized media
    object and to an unrecognized one-element media sequence. -/
theorem claim_C3_witness :
    process_opt_xml (mkInstallInfo (.str "p") (.str "x64")
        (.dict [("SAPCode", PyVal.str "QQQQ")])) = .error .keyError
    ∧ process_opt_xml (mkInstallInfo (.str "q") (.str "x64")
        (.list [.dict [("SAPCode", PyVal.str "QQQQ")]])) = .error .unboundLocalError :=
  ⟨(claim_C3.1 (.str "p") (.str "x64") [("SAPCode", PyVal.str "QQQQ")] "QQQQ"
      rfl (by decide)).1,
   (claim_C3.2 (.str "q") (.str "x64") [.dict [("SAPCode", PyVal.str "QQQQ")]]
      (by
        intro mv hmv
        rw [List.mem_singleton] at hmv
        subst hmv
        exact ⟨[("SAPCode", PyVal.str "QQQQ")], rfl,
          Or.inr (Or.inr ⟨"QQQQ", rfl, by decide⟩)⟩)).1⟩

/-- C4 counterexample: a manifest with the `Medias` key entirely absent but
    a well-formed recognized `HDMedias.HDMedia` present makes extraction
    raise KeyError instead of falling back to shape B and succeeding as the
    claim states. -/
theorem claim_C4_cex :
    process_opt_xml (PyVal.dict
      [("PackageName", PyVal.str "p"),
       ("HDMedias", PyVal.dict [("HDMedia", PyVal.list
          [PyVal.dict [("SAPCode", PyVal.str "APRO"),
                       ("productVersion", PyVal.str "23.0")]])]),
       ("ProcessorArchitecture", PyVal.str "x64")])
      = .error .keyError :=
  rfl

/-- C4 amended: the fallback to `HDMedias.HDMedia` happens exactly when
    evaluating the `Medias.Media` shape raises TypeError (a structural
    mismatch such as a present-but-null `Medias`); when the `Medias` key is
    absent, the KeyError propagates without any fallback even though shape B
    is present. -/
theorem claim_C4 :
    (∀ (pn arch : PyVal) (m : List (String × PyVal)) (sap dn : String),
        alookup m "SAPCode" = some (PyVal.str sap) →
        alookup SAP_CODES sap = some dn →
        process_opt_xml (mkInstallInfoB pn arch PyVal.none (.dict m))
          = .ok { pkg_name := pn
                  display_name := dn
                  arch := if truthy arch && pyEqStr arch "x64" then .str "x86_64" else arch
                  version := (alookup m "productVersion").getD .none
                  sap_code := .str sap })
    ∧ (∀ (kvs : List (String × PyVal)),
        alookup kvs "Medias" = Option.none →
        process_opt_xml (.dict kvs) = .error .keyError) := by
  constructor
  · intro pn arch m sap dn hsap hdn
    have hne : m ≠ [] := ne_nil_of_alookup hsap
    have hshape : (match medias_shape (mkInstallInfoB pn arch PyVal.none (.dict m)) with
                   | .error .typeError =>
                       hdmedias_shape (mkInstallInfoB pn arch PyVal.none (.dict m))
                   | r => r) = .ok (.dict m) := by
      simp [medias_shape, hdmedias_shape, mkInstallInfoB, getItem, alookup,
        process_hdmedia_dict hne]
    have harch : getItem (mkInstallInfoB pn arch PyVal.none (.dict m))
        "ProcessorArchitecture" = .ok arch := by
      simp [mkInstallInfoB, getItem, alookup]
    have hpn : pyGet (mkInstallInfoB pn arch PyVal.none (.dict m)) "PackageName"
        = .ok pn := by
      simp [mkInstallInfoB, pyGet, alookup]
    exact process_opt_xml_ok hshape hsap hdn harch hpn
  · intro kvs h
    rw [process_opt_xml]
    simp [medias_shape, getItem, h]

/-- C4 witness: the amended theorem applied to a present-but-null `Medias`
    with a recognized Acrobat HDMedia, and to a manifest lacking the
    `Medias` key. -/
theorem claim_C4_witness :
    process_opt_xml (mkInstallInfoB (.str "p") (.str "x64") PyVal.none
        (.dict [("SAPCode", PyVal.str "APRO")]))
      = .ok { pkg_name := PyVal.str "p"
              display_name := "Adobe Acrobat Pro"
              arch := PyVal.str "x86_64"
              version := PyVal.none
              sap_code := PyVal.str "APRO" }
    ∧ process_opt_xml (PyVal.dict
        [("HDMedias", PyVal.dict [("HDMedia",
            PyVal.dict [("SAPCode", PyVal.str "APRO")])])])
      = .error .keyError := by
  constructor
  · have := claim_C4.1 (.str "p") (.str "x64") [("SAPCode", PyVal.str "APRO")]
      "APRO" "Adobe Acrobat Pro" rfl (by decide)
    simpa [truthy, pyEqStr] using this
  · exact claim_C4.2
      [("HDMedias", PyVal.dict [("HDMedia",
          PyVal.dict [("SAPCode", PyVal.str "APRO")])])] rfl

/-- C1 counterexample: when the expansion step raises, `package_patch`
    propagates the error with an empty cleanup trace — the still-mounted
    image is detached zero times, not exactly once as the claim states. -/
theorem claim_C1_cex :
    package_patch
      { mount := .ok "/Volumes/Acrobat"
        findInstaller := .ok "Acrobat/Acrobat DC Installer.pkg"
        expand := .error .typeError
        appVersion := .ok "23.0"
        receipts := .ok []
        minOsVer := .ok Option.none
        mountExists := true
        tmpExists := true }
      = (.error .typeError, [])
    ∧ List.count CleanupAction.detach
        (package_patch
          { mount := .ok "/Volumes/Acrobat"
            findInstaller := .ok "Acrobat/Acrobat DC Installer.pkg"
            expand := .error .typeError
            appVersion := .ok "23.0"
            receipts := .ok []
            minOsVer := .ok Option.none
            mountExists := true
            tmpExists := true }).2 = 0 :=
  ⟨rfl, rfl⟩

/-- C1 amended: cleanup runs only on the exception-free path of the
    nested-package resolver: when every step succeeds the image is detached
    exactly once (if still mounted) and the temporary directory removed
    exactly once (if it still exists), with unmounting attempted before
    directory deletion; when any step raises, the error propagates with no
    cleanup performed. -/
theorem claim_C1 (env : AcrobatEnv) :
    (∀ (mp inst tmp ver : String) (rs : List AcrobatReceipt) (mo : Option String),
        env.mount = .ok mp → env.findInstaller = .ok inst → env.expand = .ok tmp →
        env.appVersion = .ok ver → env.receipts = .ok rs → env.minOsVer = .ok mo →
        (package_patch env).2
          = (if env.mountExists then [CleanupAction.detach] else [])
            ++ (if env.tmpExists then [CleanupAction.rmtree] else []))
    ∧ (∀ e, (package_patch env).1 = .error e → (package_patch env).2 = []) := by
  obtain ⟨m, f, x, v, r, o, me, te⟩ := env
  constructor
  · intro mp inst tmp ver rs mo h1 h2 h3 h4 h5 h6
    simp only at h1 h2 h3 h4 h5 h6
    subst h1 h2 h3 h4 h5 h6
    rfl
  · intro e
    cases m <;> cases f <;> cases x <;> cases v <;> cases r <;> cases o <;>
      simp [package_patch]

/-- C1 witness: the amended theorem applied to a fully successful run with
    the mount path and the temporary directory both still present, detaching
    before removing, and to a run whose expansion step raises. -/
theorem claim_C1_witness :
    (package_patch
      { mount := .ok "/Volumes/Acrobat"
        findInstaller := .ok "Acrobat/Acrobat DC Installer.pkg"
        expand := .ok "/private/tmp/adobe"
        appVersion := .ok "23.0"
        receipts := .ok [{ packageid := "com.adobe.acrobat.DC.viewer.app.pkg.MUI",
                           version := "23.0" }]
        minOsVer := .ok (some "10.15")
        mountExists := true
        tmpExists := true }).2 = [CleanupAction.detach, CleanupAction.rmtree]
    ∧ (package_patch
      { mount := .ok "/Volumes/Acrobat"
        findInstaller := .ok "Acrobat/Acrobat DC Installer.pkg"
        expand := .error .attributeError
        appVersion := .ok "23.0"
        receipts := .ok []
        minOsVer := .ok Option.none
        mountExists := true
        tmpExists := true }).2 = [] := by
  constructor
  · have := (claim_C1
      { mount := .ok "/Volumes/Acrobat"
        findInstaller := .ok "Acrobat/Acrobat DC Installer.pkg"
        expand := .ok "/private/tmp/adobe"
        appVersion := .ok "23.0"
        receipts := .ok [{ packageid := "com.adobe.acrobat.DC.viewer.app.pkg.MUI",
                           version := "23.0" }]
        minOsVer := .ok (some "10.15")
        mountExists := true
        tmpExists := true }).1 "/Volumes/Acrobat" "Acrobat/Acrobat DC Installer.pkg"
        "/private/tmp/adobe" "23.0"
        [{ packageid := "com.adobe.acrobat.DC.viewer.app.pkg.MUI", version := "23.0" }]
        (some "10.15") rfl rfl rfl rfl rfl rfl
    simpa using this
  · exact (claim_C1 _).2 .attributeError rfl

/-- C10: for a package whose selected product code is APRO, `process_package`
    never consults the locale-based description resolver — the result is the
    same under any two resolver oracles and any two requested locales — and
    every successfully built record carries the fixed Acrobat description
    constant. -/
theorem claim_C10 (env : PackageEnv) (locale₁ locale₂ : String)
    (f g : PyVal → String → Except PyErr String) (r : OptResult)
    (hr : process_opt_xml env.install_info = .ok r)
    (hs : r.sap_code = .str "APRO") :
    process_package { env with descOracle := f } locale₁
      = process_package { env with descOracle := g } locale₂
    ∧ ∀ p, process_package env locale₁ = .ok p → p.description = APRO_DESCRIPTION := by
  obtain ⟨ii, mo, ai, idir, ip, up, dor, ac⟩ := env
  simp only at hr
  have hbl : blocking_for r.sap_code = .ok ["Microsoft Word", "Safari"] := by
    rw [hs]; rfl
  have hap : pyEqStr r.sap_code "APRO" = true := by
    rw [hs]; rfl
  constructor
  · rw [process_package, process_package]
    simp [hr, hbl, hap]
  · intro p hp
    rw [process_package] at hp
    simp only [hr, hbl, hap, Bool.not_true, Bool.false_eq_true, if_false] at hp
    cases hpp : (package_patch ac).1 with
    | error e =>
      rw [hpp] at hp
      exact Except.noConfusion hp
    | ok patch =>
      rw [hpp] at hp
      cases hp
      rfl

/-- C10 witness: the theorem applied to a concrete Acrobat manifest with two
    different description oracles (one of which even raises) and two
    different locales. -/
theorem claim_C10_witness :
    process_package
      { install_info := mkInstallInfo (.str "AcrobatDC") (.str "x64")
          (.dict [("SAPCode", PyVal.str "APRO"), ("productVersion", PyVal.str "15.0")])
        min_os_plist := some "10.15"
        app_icon := Option.none
        icon_dir := "/repo/icons"
        install_pkg := "/adobe/AcrobatDC/Build/install.pkg"
        uninstall_pkg := "/adobe/AcrobatDC/Build/uninstall.pkg"
        descOracle := fun _ _ => .ok "from the locale resolver"
        acrobat :=
          { mount := .ok "/Volumes/Acrobat"
            findInstaller := .ok "Acrobat/Acrobat DC Installer.pkg"
            expand := .ok "/private/tmp/adobe"
            appVersion := .ok "23.0"
            receipts := .ok []
            minOsVer := .ok Option.none
            mountExists := true
            tmpExists := true } } "en_GB"
      = process_package
      { install_info := mkInstallInfo (.str "AcrobatDC") (.str "x64")
          (.dict [("SAPCode", PyVal.str "APRO"), ("productVersion", PyVal.str "15.0")])
        min_os_plist := some "10.15"
        app_icon := Option.none
        icon_dir := "/repo/icons"
        install_pkg := "/adobe/AcrobatDC/Build/install.pkg"
        uninstall_pkg := "/adobe/AcrobatDC/Build/uninstall.pkg"
        descOracle := fun _ _ => .error .keyError
        acrobat :=
          { mount := .ok "/Volumes/Acrobat"
            findInstaller := .ok "Acrobat/Acrobat DC Installer.pkg"
            expand := .ok "/private/tmp/adobe"
            appVersion := .ok "23.0"
            receipts := .ok []
            minOsVer := .ok Option.none
            mountExists := true
            tmpExists := true } } "fr_FR" := by
  exact (claim_C10
    { install_info := mkInstallInfo (.str "AcrobatDC") (.str "x64")
        (.dict [("SAPCode", PyVal.str "APRO"), ("productVersion", PyVal.str "15.0")])
      min_os_plist := some "10.15"
      app_icon := Option.none
      icon_dir := "/repo/icons"
      install_pkg := "/adobe/AcrobatDC/Build/install.pkg"
      uninstall_pkg := "/adobe/AcrobatDC/Build/uninstall.pkg"
      descOracle := fun _ _ => .ok "unused"
      acrobat :=
        { mount := .ok "/Volumes/Acrobat"
          findInstaller := .ok "Acrobat/Acrobat DC Installer.pkg"
          expand := .ok "/private/tmp/adobe"
          appVersion := .ok "23.0"
          receipts := .ok []
          minOsVer := .ok Option.none
          mountExists := true
          tmpExists := true } } "en_GB" "fr_FR"
    (fun _ _ => .ok "from the locale resolver") (fun _ _ => .error .keyError)
    { pkg_name := PyVal.str "AcrobatDC"
      display_name := "Adobe Acrobat Pro"
      arch := PyVal.str "x86_64"
      version := PyVal.str "15.0"
      sap_code := PyVal.str "APRO" } rfl rfl).1

/-- C5 counterexample: a well-formed element with no attributes and no
    children but with text content decodes to its text, not to the mapping
    from the tag to `None` stated by the claim. -/
theorem claim_C5_cex :
    convert_xml (.mk "a" [] (some "hi") []) = .dict [("a", PyVal.str "hi")]
    ∧ PyVal.dict [("a", PyVal.str "hi")] ≠ PyVal.dict [("a", PyVal.none)] :=
  ⟨by simp [convert_xml, convert_inner, convert_children, Element.tag]; decide, by simp⟩

/-- C5 amended: a well-formed element with no attributes, no children, and
    no text (a `None` or empty text) decodes to the single-key mapping from
    its tag to `None`. -/
theorem claim_C5 (tag : String) (text : Option String)
    (h : text = Option.none ∨ text = some "") :
    convert_xml (.mk tag [] text []) = .dict [(tag, PyVal.none)] := by
  rcases h with rfl | rfl <;>
    · rw [convert_xml, convert_inner]
      rfl

/-- C5 witness: the amended theorem applied at a concrete tag with `None`
    text. -/
theorem claim_C5_witness :
    convert_xml (.mk "a" [] Option.none []) = .dict [("a", PyVal.none)] :=
  claim_C5 "a" Option.none (Or.inl rfl)

/-- Values carried by the pairs with the given key, in order; the content of
    the group that `convert_xml` builds for that key. -/
def valsOf (X : String) (pairs : List (String × PyVal)) : List PyVal :=
  (pairs.filter (fun p => p.1 == X)).map (fun p => p.2)

theorem alookup_groupAdd (groups : List (String × List PyVal)) (k : String)
    (v : PyVal) (X : String) :
    alookup (groupAdd groups k v) X
      = if k = X then some ((alookup groups k).getD [] ++ [v])
        else alookup groups X := by
  induction groups with
  | nil =>
    by_cases hk : k = X <;> simp [groupAdd, alookup, hk]
  | cons g gs ih =>
    by_cases hg : g.1 = k
    · by_cases hk : k = X
      · simp [groupAdd, alookup, hg, hk, hg.trans hk]
      · have hgX : ¬ g.1 = X := fun h => hk (hg.symm.trans h)
        simp [groupAdd, alookup, hg, hk, hgX]
    · by_cases hgX : g.1 = X
      · have hk : ¬ k = X := fun h => hg (hgX.trans h.symm)
        have hXk : ¬ X = k := fun h => hk h.symm
        simp [groupAdd, alookup, hg, hgX, hk, hXk]
      · by_cases hk : k = X
        · subst hk
          simp [groupAdd, alookup, hg, hgX, ih]
        · simp [groupAdd, alookup, hg, hgX, hk, ih]

theorem alookup_groupPairs (X : String) (pairs : List (String × PyVal)) :
    ∀ groups, alookup (groupPairs pairs groups) X
      = match alookup groups X, valsOf X pairs with
        | some l, vs => some (l ++ vs)
        | Option.none, [] => Option.none
        | Option.none, v :: vs => some (v :: vs) := by
  induction pairs with
  | nil =>
    intro groups
    rw [groupPairs]
    cases h : alookup groups X <;> simp [valsOf]
  | cons p rest ih =>
    intro groups
    obtain ⟨k, v⟩ := p
    rw [groupPairs, ih (groupAdd groups k v), alookup_groupAdd]
    by_cases hk : k = X
    · have hvals : valsOf X ((k, v) :: rest) = v :: valsOf X rest := by
        simp [valsOf, List.filter_cons, hk]
      rw [if_pos hk, hvals]
      subst hk
      cases h : alookup groups k with
      | none => simp
      | some l => simp [List.append_assoc]
    · have hvals : valsOf X ((k, v) :: rest) = valsOf X rest := by
        simp [valsOf, List.filter_cons, hk]
      rw [if_neg hk, hvals]

theorem alookup_map_collapse (l : List (String × List PyVal)) (X : String) :
    alookup (l.map (fun g => (g.1, collapse g.2))) X
      = (alookup l X).map collapse := by
  induction l with
  | nil => rfl
  | cons g gs ih =>
    by_cases hg : g.1 = X <;> simp [alookup, hg, ih]

theorem alookup_dictSet (kvs : List (String × PyVal)) (k : String) (v : PyVal)
    (X : String) :
    alookup (dictSet kvs k v) X
      = if k = X then some v else alookup kvs X := by
  induction kvs with
  | nil => by_cases hk : k = X <;> simp [dictSet, alookup, hk]
  | cons g gs ih =>
    by_cases hg : g.1 = k
    · by_cases hk : k = X
      · simp [dictSet, alookup, hg, hk, hg.trans hk]
      · have hgX : ¬ g.1 = X := fun h => hk (hg.symm.trans h)
        simp [dictSet, alookup, hg, hk, hgX]
    · by_cases hgX : g.1 = X
      · have hk : ¬ k = X := fun h => hg (hgX.trans h.symm)
        have hXk : ¬ X = k := fun h => hk h.symm
        simp [dictSet, alookup, hg, hgX, hk, hXk]
      · by_cases hk : k = X
        · subst hk
          simp [dictSet, alookup, hg, hgX, ih]
        · simp [dictSet, alookup, hg, hgX, hk, ih]

theorem alookup_dictUpdate (kvs : List (String × PyVal))
    (pairs : List (String × PyVal)) (X : String)
    (h : ∀ p ∈ pairs, ¬ p.1 = X) :
    alookup (dictUpdate kvs pairs) X = alookup kvs X := by
  induction pairs generalizing kvs with
  | nil => rfl
  | cons p ps ih =>
    rw [dictUpdate, List.foldl_cons]
    have hps := ih (dictSet kvs p.1 p.2) (fun q hq => h q (List.mem_cons_of_mem _ hq))
    rw [dictUpdate] at hps
    rw [hps, alookup_dictSet, if_neg (h p (List.mem_cons_self _ _))]

theorem valsOf_children (X : String) (children : List Element) :
    valsOf X (convert_children children)
      = (children.filter (fun c => c.tag == X)).map (fun c => convert_inner c) := by
  induction children with
  | nil => rw [convert_children]; rfl
  | cons c cs ih =>
    rw [convert_children]
    by_cases hc : c.tag = X
    · simp [valsOf, List.filter_cons, hc] at ih ⊢
      exact ih
    · simp [valsOf, List.filter_cons, hc] at ih ⊢
      exact ih

theorem convert_children_ne {children : List Element} (h : children ≠ []) :
    (convert_children children).isEmpty = false := by
  cases children with
  | nil => exact absurd rfl h
  | cons c cs => rw [convert_children]; rfl

theorem convert_inner_lookup (tag : String) (attrib : List (String × String))
    (text : Option String) (children : List Element) (X : String)
    (hch : children ≠ [])
    (hattr : ∀ kv ∈ attrib, ¬ kv.1 = X)
    (htext : X = "text" → ∀ t, text = some t → pyStrip t = "") :
    (convert_inner (.mk tag attrib text children)).lookup X
      = (alookup (groupPairs (convert_children children) []) X).map collapse := by
  have h1 := convert_children_ne hch
  have hmapped : ∀ p ∈ attrib.map (fun kv => (kv.1, PyVal.str kv.2)), ¬ p.1 = X := by
    intro p hp
    obtain ⟨kv, hkv, rfl⟩ := List.mem_map.mp hp
    exact hattr kv hkv
  have hWA : PyVal.lookup
      (if attrib.isEmpty = true then
        PyVal.dict ((groupPairs (convert_children children) []).map
          (fun g => (g.1, collapse g.2)))
      else
        PyVal.dict (dictUpdate
          ((groupPairs (convert_children children) []).map (fun g => (g.1, collapse g.2)))
          (attrib.map (fun kv => (kv.1, PyVal.str kv.2))))) X
      = (alookup (groupPairs (convert_children children) []) X).map collapse := by
    by_cases ha : attrib.isEmpty = true
    · rw [if_pos ha, PyVal.lookup, alookup_map_collapse]
    · rw [if_neg ha, PyVal.lookup,
        alookup_dictUpdate _ _ _ hmapped, alookup_map_collapse]
  rcases text with _ | t
  · rw [convert_inner]
    simp only [h1, Bool.false_eq_true, if_false]
    exact hWA
  · rw [convert_inner]
    by_cases ht : (t == "") = true
    · simp only [h1, Bool.false_eq_true, if_false, ht, if_true]
      exact hWA
    · by_cases hst : (pyStrip t == "") = true
      · simp only [h1, Bool.false_eq_true, if_false, ht, Bool.not_false,
          Bool.true_or, if_true, hst]
        exact hWA
      · have hXt : ¬ "text" = X := by
          intro hx
          have := htext hx.symm t rfl
          rw [this] at hst
          simp at hst
        simp only [h1, Bool.false_eq_true, if_false, ht, Bool.not_false,
          Bool.true_or, if_true, hst]
        by_cases ha : attrib.isEmpty = true
        · rw [if_pos ha, PyVal.lookup, alookup_dictSet, if_neg hXt,
            alookup_map_collapse]
        · rw [if_neg ha, PyVal.lookup, alookup_dictSet, if_neg hXt,
            alookup_dictUpdate _ _ _ hmapped, alookup_map_collapse]

/-- C6 counterexample: an element whose children include the tag `X` exactly
    once but which also carries an attribute named `X` decodes `X` to the
    attribute value, not to the decoded child value as the claim states. -/
theorem claim_C6_cex :
    (convert_inner (.mk "r" [("X", "shadow")] Option.none
        [.mk "X" [] Option.none []])).lookup "X" = some (PyVal.str "shadow")
    ∧ convert_inner (.mk "X" [] Option.none []) = PyVal.none
    ∧ PyVal.str "shadow" ≠ PyVal.none := by
  refine ⟨?_, ?_, by simp⟩
  · rw [convert_inner]
    rfl
  · rw [convert_inner]
    rfl

/-- C6 amended: for an element whose children include a tag `X` exactly once
    decode maps `X` to the single decoded child value, and with `X` occurring
    twice decode maps `X` to the ordered two-element sequence of the decoded
    values in document order — provided no attribute of the element is named
    `X` and the reserved text key does not overlay it (`X` may be `text` only
    when the text of the element is absent or strips to empty). -/
theorem claim_C6 :
    (∀ (tag X : String) (attrib : List (String × String)) (text : Option String)
        (children : List Element) (c : Element),
        children.filter (fun c => c.tag == X) = [c] →
        (∀ kv ∈ attrib, ¬ kv.1 = X) →
        (X = "text" → ∀ t, text = some t → pyStrip t = "") →
        (convert_inner (.mk tag attrib text children)).lookup X
          = some (convert_inner c))
    ∧ (∀ (tag X : String) (attrib : List (String × String)) (text : Option String)
        (children : List Element) (c₁ c₂ : Element),
        children.filter (fun c => c.tag == X) = [c₁, c₂] →
        (∀ kv ∈ attrib, ¬ kv.1 = X) →
        (X = "text" → ∀ t, text = some t → pyStrip t = "") →
        (convert_inner (.mk tag attrib text children)).lookup X
          = some (.list [convert_inner c₁, convert_inner c₂])) := by
  constructor
  · intro tag X attrib text children c hocc hattr htext
    have hch : children ≠ [] := by
      intro h
      rw [h] at hocc
      simp at hocc
    rw [convert_inner_lookup tag attrib text children X hch hattr htext,
      alookup_groupPairs, valsOf_children, hocc]
    simp [alookup, collapse]
  · intro tag X attrib text children c₁ c₂ hocc hattr htext
    have hch : children ≠ [] := by
      intro h
      rw [h] at hocc
      simp at hocc
    rw [convert_inner_lookup tag attrib text children X hch hattr htext,
      alookup_groupPairs, valsOf_children, hocc]
    simp [alookup, collapse]

/-- C6 witness: the amended theorem applied to a parent with one `X` child
    and to a parent with two `X` children in document order. -/
theorem claim_C6_witness :
    (convert_inner (.mk "r" [] Option.none [.mk "X" [] Option.none []])).lookup "X"
      = some PyVal.none
    ∧ (convert_inner (.mk "r" [] Option.none
        [.mk "X" [] Option.none [], .mk "X" [] (some "z") []])).lookup "X"
      = some (.list [PyVal.none, PyVal.str "z"]) := by
  constructor
  · have h := claim_C6.1 "r" "X" [] Option.none [.mk "X" [] Option.none []]
      (.mk "X" [] Option.none []) rfl (by simp)
      (fun hx => absurd hx (by decide))
    rw [h, show convert_inner (.mk "X" [] Option.none []) = PyVal.none from by
      rw [convert_inner]; rfl]
  · have h := claim_C6.2 "r" "X" [] Option.none
      [.mk "X" [] Option.none [], .mk "X" [] (some "z") []]
      (.mk "X" [] Option.none []) (.mk "X" [] (some "z") []) rfl (by simp)
      (fun hx => absurd hx (by decide))
    rw [h, show convert_inner (.mk "X" [] Option.none []) = PyVal.none from by
      rw [convert_inner]; rfl,
      show convert_inner (.mk "X" [] (some "z") []) = PyVal.str "z" from by
      rw [convert_inner]; rfl]

end Kinobi
